import Mathlib

/-!
Verification of the Inventory Forecasting and Restock Lifecycle Engine of the
Datathon-2025 repository.

The depletion forecast and the low-stock summary are embedded from
`src/Frontend/index.js` (`renderLowStockTable`, `updateSummaryCards`).
The restock-request ledger, the restock policy and the scheduled sweep are not
implemented in the repository (the UI handlers only log the API calls they
would make), so those operations are modelled from the specification.
-/

/-- Stock item record, fields as in `inventoryState.stock`
(src/Frontend/index.js:358-363). Quantities are integers in the data;
`current_stock` and `daily_usage` are modelled as integers. -/
structure Item where
  id : ℕ
  name : String
  type : String
  current_stock : ℤ
  daily_usage : ℤ
  unit : String
  deriving DecidableEq

/-- Urgency tier vocabulary. The code expresses the tier as a badge colour
(red = Critical, yellow = High, green = Normal); `Unknown` is in the
vocabulary of the specification but is never produced by the code. -/
inductive Tier where
  | Critical
  | High
  | Normal
  | Unknown
  deriving DecidableEq

/-- Remaining-days computation of `renderLowStockTable`
(src/Frontend/index.js:385):
`item.daily_usage > 0 ? Math.floor(item.current_stock / item.daily_usage) : Infinity`.
`none` models the `Infinity` sentinel, which the table renders as "N/A".
For a positive divisor, integer division in Lean is floor division, matching
`Math.floor` of the exact quotient. -/
def daysRemaining (item : Item) : Option ℤ :=
  if 0 < item.daily_usage then some (item.current_stock / item.daily_usage) else none

/-- Badge colour selection of `renderLowStockTable`
(src/Frontend/index.js:386-388): the default is green (Normal); red
(Critical) if `daysRemaining <= 5`, else yellow (High) if
`daysRemaining <= 10`. When `daysRemaining` is `Infinity` (`none` here) both
comparisons are false, so the badge stays green. -/
def tierOfDays : Option ℤ → Tier
  | some d => if d ≤ 5 then .Critical else if d ≤ 10 then .High else .Normal
  | none => .Normal

/-- Urgency tier the table assigns to an item. -/
def urgencyTier (item : Item) : Tier :=
  tierOfDays (daysRemaining item)

/-- Low-stock membership test of `updateSummaryCards`
(src/Frontend/index.js:448):
`item.daily_usage > 0 && (item.current_stock / item.daily_usage) <= 5`,
with the unfloored quotient, modelled exactly over the rationals. -/
def isLowStockSummary (item : Item) : Bool :=
  decide (0 < item.daily_usage) &&
    decide ((item.current_stock : ℚ) / (item.daily_usage : ℚ) ≤ 5)

/-- Low-stock count of `updateSummaryCards` (src/Frontend/index.js:448). -/
def lowStockCount (stock : List Item) : ℕ :=
  (stock.filter isLowStockSummary).length

/-- Initial catalog from `inventoryState.stock` (src/Frontend/index.js:358-363). -/
def stock0 : List Item :=
  [{ id := 1, name := "Paracetamol", type := "Drug", current_stock := 45,
     daily_usage := 10, unit := "Tablets" },
   { id := 2, name := "Gloves", type := "Supply", current_stock := 150,
     daily_usage := 20, unit := "Pairs" },
   { id := 3, name := "Syringes", type := "Supply", current_stock := 200,
     daily_usage := 15, unit := "Units" },
   { id := 4, name := "Amoxicillin", type := "Drug", current_stock := 120,
     daily_usage := 10, unit := "Capsules" }]

/-- Concrete item with zero daily usage, as the dashboard's zero-quantity
Amoxicillin row would have once usage data is absent. -/
def itemZeroUsage : Item :=
  { id := 9, name := "Amoxicillin", type := "Drug", current_stock := 80,
    daily_usage := 0, unit := "Capsules" }

/-- Restock request status vocabulary (spec section 3; the UI badge switch in
src/Frontend/index.js:411-415 uses the same Pending/Approved/Declined names). -/
inductive Status where
  | Pending
  | Approved
  | Declined
  | Fulfilled
  deriving DecidableEq

/-- Error taxonomy of spec section 7. -/
inductive Err where
  | ValidationError
  | DuplicateOpenRequest
  | InvalidTransition
  | NotFound
  deriving DecidableEq

/-- Modelled from the spec: `RestockRequest` record (spec section 3). The
repository's backend for `/inventory/restock-requests` is absent; only the UI
rows (src/Frontend/index.js:364-367) and logging stubs exist. -/
structure RestockRequest where
  request_id : ℕ
  item_id : ℕ
  quantity : ℤ
  priority : Tier
  status : Status
  requested_at : ℕ
  comments : String
  deriving DecidableEq

/-- Modelled from the spec: the `RestockRequestLedger` state (spec section 4.3).
`next_id` supplies fresh request ids and `now` a logical creation clock. -/
structure Ledger where
  requests : List RestockRequest
  next_id : ℕ
  now : ℕ
  deriving DecidableEq

/-- A request is open when Pending or Approved-but-not-yet-fulfilled
(spec glossary). -/
def isOpenReq (r : RestockRequest) : Bool :=
  decide (r.status = .Pending) || decide (r.status = .Approved)

/-- Whether the ledger holds an open request for the given item. -/
def openFor (l : Ledger) (iid : ℕ) : Bool :=
  l.requests.any (fun r => decide (r.item_id = iid) && isOpenReq r)

/-- Specification of a new request handed to the ledger by the policy or by a
manual request action (spec section 4.2). -/
structure NewRequestSpec where
  item_id : ℕ
  quantity : ℤ
  priority : Tier
  deriving DecidableEq

/-- Modelled from the spec: `create(spec)` of the ledger (spec section 4.3):
fails with the duplicate-guard if an open request already exists for the same
item, otherwise inserts a new Pending request and returns its id. The
repository only logs `POST /inventory/restock-requests`
(src/Frontend/index.js:493-498). -/
def Ledger.create (l : Ledger) (s : NewRequestSpec) : Except Err (Ledger × ℕ) :=
  if openFor l s.item_id then
    .error .DuplicateOpenRequest
  else
    .ok ({ requests := l.requests ++
             [{ request_id := l.next_id, item_id := s.item_id,
                quantity := s.quantity, priority := s.priority,
                status := .Pending, requested_at := l.now, comments := "" }],
           next_id := l.next_id + 1, now := l.now + 1 }, l.next_id)

/-- Lookup of a request by id. -/
def Ledger.findReq (l : Ledger) (rid : ℕ) : Option RestockRequest :=
  l.requests.find? (fun r => decide (r.request_id = rid))

/-- Rewrite the status (and comment) of the request with the given id. -/
def setReqStatus (l : Ledger) (rid : ℕ) (st : Status) (comment : String) : Ledger :=
  { l with requests := l.requests.map (fun r =>
      if r.request_id = rid then { r with status := st, comments := comment } else r) }

/-- Modelled from the spec: `approve(request_id, comment)` (spec section 4.3),
valid only from Pending, fails with InvalidTransition otherwise. The
repository only logs `PUT /inventory/restock-requests/:id`
(src/Frontend/index.js:500-506). -/
def Ledger.approve (l : Ledger) (rid : ℕ) (comment : String) : Except Err Ledger :=
  match l.findReq rid with
  | none => .error .NotFound
  | some r =>
    if r.status = .Pending then .ok (setReqStatus l rid .Approved comment)
    else .error .InvalidTransition

/-- Modelled from the spec: `decline(request_id, comment)` (spec section 4.3),
valid only from Pending, fails with InvalidTransition otherwise. -/
def Ledger.decline (l : Ledger) (rid : ℕ) (comment : String) : Except Err Ledger :=
  match l.findReq rid with
  | none => .error .NotFound
  | some r =>
    if r.status = .Pending then .ok (setReqStatus l rid .Declined comment)
    else .error .InvalidTransition

/-- The catalog is the collection of stock items (spec section 2). -/
abbrev Catalog := List Item

/-- Add a quantity to the stock of the item with the given id. -/
def addStockTo (cat : Catalog) (iid : ℕ) (q : ℤ) : Catalog :=
  List.map (fun i => if i.id = iid then { i with current_stock := i.current_stock + q } else i) cat

/-- Modelled from the spec: `fulfill(request_id)` (spec section 4.3), valid
only from Approved; on success increases the target item's stock by the
request's quantity and marks the request Fulfilled, atomically. -/
def fulfill (cat : Catalog) (l : Ledger) (rid : ℕ) : Except Err (Catalog × Ledger) :=
  match l.findReq rid with
  | none => .error .NotFound
  | some r =>
    if r.status = .Approved then
      .ok (addStockTo cat r.item_id r.quantity, setReqStatus l rid .Fulfilled r.comments)
    else .error .InvalidTransition

/-- Modelled from the spec: the stock-update operation (spec sections 3 and 7):
an update that would drive `current_stock` negative is rejected with a
ValidationError and mutates nothing. The repository's update-stock form only
logs `POST /inventory/update-stock` (src/Frontend/index.js:486-491). -/
def updateStock (cat : Catalog) (iid : ℕ) (delta : ℤ) : Except Err Catalog :=
  match List.find? (fun i => decide (i.id = iid)) cat with
  | none => .error .NotFound
  | some i =>
    if i.current_stock + delta < 0 then .error .ValidationError
    else .ok (addStockTo cat iid delta)

/-- Modelled from the spec: `list(filter_by_status?)` of the ledger (spec
section 4.3), a read-only projection of the requests, optionally filtered by
status; the ledger keeps requests in `requested_at` order. -/
def Ledger.listReq (l : Ledger) (filt : Option Status) : List RestockRequest :=
  match filt with
  | none => l.requests
  | some st => l.requests.filter (fun r => decide (r.status = st))

/-- A tier triggers an automatic request exactly when Critical or High
(spec section 4.2). -/
def triggersTier (t : Tier) : Bool :=
  decide (t = .Critical) || decide (t = .High)

/-- Modelled from the spec: `RestockPolicy.evaluate` (spec section 4.2): no
action on an Unknown or Normal tier, no action if an open request already
exists; otherwise a request spec with the configurable top-up quantity and
the priority copied from the forecast tier. No policy code exists in the
repository; the auto-restock button only logs
`POST /inventory/auto-restock-check` (src/Frontend/index.js:508). -/
def RestockPolicy.evaluate (topup : Item → ℤ) (item : Item) (tier : Tier)
    (hasOpen : Bool) : Option NewRequestSpec :=
  if tier = .Unknown ∨ tier = .Normal then none
  else if hasOpen then none
  else some { item_id := item.id, quantity := topup item, priority := tier }

/-- Result of a sweep: ids of created requests, ids of skipped items, and the
resulting ledger (spec section 4.4). -/
structure SweepResult where
  created : List ℕ
  skipped : List ℕ
  ledger : Ledger
  deriving DecidableEq

/-- Modelled from the spec: one step of the sweep over a single item: compute
the forecast, consult the policy, and commit a returned spec via
`Ledger.create`; an item whose tier triggers but that already has an open
request is recorded as skipped (spec sections 4.4 and 7). -/
def sweepStep (topup : Item → ℤ) (acc : SweepResult) (item : Item) : SweepResult :=
  match RestockPolicy.evaluate topup item (urgencyTier item) (openFor acc.ledger item.id) with
  | some s =>
    match acc.ledger.create s with
    | .ok (l2, rid) => { created := acc.created ++ [rid], skipped := acc.skipped, ledger := l2 }
    | .error _ => { acc with skipped := acc.skipped ++ [item.id] }
  | none =>
    if triggersTier (urgencyTier item) then { acc with skipped := acc.skipped ++ [item.id] }
    else acc

/-- Modelled from the spec: `ScheduledSweep.run(catalog)` in commit mode:
iterate every item of the catalog exactly once, committing the policy's
request specs to the ledger (spec section 4.4). -/
def ScheduledSweep.run (topup : Item → ℤ) (cat : Catalog) (l : Ledger) : SweepResult :=
  List.foldl (sweepStep topup) { created := [], skipped := [], ledger := l } cat

/-- The engine's mutable state: the catalog and the ledger (spec section 2). -/
structure EngineState where
  catalog : Catalog
  ledger : Ledger

/-- The stock-mutating operations of the engine boundary (spec section 6). -/
inductive InvOp where
  | updStock (iid : ℕ) (delta : ℤ)
  | mkReq (s : NewRequestSpec)
  | appr (rid : ℕ) (comment : String)
  | decl (rid : ℕ) (comment : String)
  | fulf (rid : ℕ)

/-- One engine operation applied to the state; a failing operation mutates
nothing (atomic rejection, spec section 7). -/
def stepOp (st : EngineState) (op : InvOp) : Except Err EngineState :=
  match op with
  | .updStock iid delta =>
    (updateStock st.catalog iid delta).map (fun c => { st with catalog := c })
  | .mkReq s => (st.ledger.create s).map (fun p => { st with ledger := p.1 })
  | .appr rid comment => (st.ledger.approve rid comment).map (fun l => { st with ledger := l })
  | .decl rid comment => (st.ledger.decline rid comment).map (fun l => { st with ledger := l })
  | .fulf rid =>
    (fulfill st.catalog st.ledger rid).map (fun p => { catalog := p.1, ledger := p.2 })

/-- Run a sequence of operations; an operation that fails leaves the state as
it was and the sequence continues. -/
def runOps (st : EngineState) (ops : List InvOp) : EngineState :=
  List.foldl (fun s op => match stepOp s op with | .ok s2 => s2 | .error _ => s) st ops

/-- Well-formed engine state: non-negative stock everywhere (spec section 3
invariant), non-negative request quantities, distinct item ids. -/
def EngineWF (st : EngineState) : Prop :=
  (∀ i ∈ st.catalog, 0 ≤ i.current_stock) ∧
  (∀ r ∈ st.ledger.requests, 0 ≤ r.quantity) ∧
  List.Pairwise (fun a b => a.id ≠ b.id) st.catalog

/-- Operation well-formedness: a created request carries a positive quantity
(spec section 3: quantity is a positive integer). -/
def OpOK : InvOp → Bool
  | .mkReq s => decide (0 < s.quantity)
  | _ => true

/-- The permitted status steps of the request state machine (spec
section 4.3), reflexive on every state because an operation may leave a
request untouched. -/
def allowedStep (a b : Status) : Prop :=
  a = b ∨ (a = .Pending ∧ b = .Approved) ∨ (a = .Pending ∧ b = .Declined) ∨
    (a = .Approved ∧ b = .Fulfilled)

/-- Request ids are unique in the ledger (spec section 3: `request_id` is
unique, assigned at creation). -/
def UniqueIds (l : Ledger) : Prop :=
  List.Pairwise (fun a b => a.request_id ≠ b.request_id) l.requests

/-- Every request of one ledger reaches its counterpart of another ledger by
a permitted status step. -/
def StatusesStep (l l2 : Ledger) : Prop :=
  ∀ r ∈ l.requests, ∃ r2 ∈ l2.requests,
    r2.request_id = r.request_id ∧ allowedStep r.status r2.status

/-- Concrete Pending request mirroring row 101 of `inventoryState.requests`
(src/Frontend/index.js:365), with the Paracetamol item id. -/
def req101 : RestockRequest :=
  { request_id := 101, item_id := 1, quantity := 500, priority := .Critical,
    status := .Pending, requested_at := 0, comments := "-" }

/-- Concrete Approved request mirroring row 102 of `inventoryState.requests`
(src/Frontend/index.js:366), with the Syringes item id. -/
def req102 : RestockRequest :=
  { request_id := 102, item_id := 3, quantity := 200, priority := .High,
    status := .Approved, requested_at := 1, comments := "Delivered" }

/-- Concrete Declined request for transition counterpart checks. -/
def req103 : RestockRequest :=
  { request_id := 103, item_id := 4, quantity := 50, priority := .High,
    status := .Declined, requested_at := 2, comments := "No" }

/-- Concrete ledger holding the three requests above. -/
def ledger0 : Ledger :=
  { requests := [req101, req102, req103], next_id := 104, now := 3 }

/-- Concrete item used for the table-versus-summary boundary: 55 in stock at
a daily usage of 10. -/
def item55 : Item :=
  { id := 7, name := "Zinc", type := "Drug", current_stock := 55,
    daily_usage := 10, unit := "Tablets" }

/-- A differently named item with the same stock numbers as `item55`. -/
def item55b : Item :=
  { id := 8, name := "Vitamin C", type := "Supply", current_stock := 55,
    daily_usage := 10, unit := "Sachets" }

/-- Request spec targeting item 2, which has no open request in `ledger0`. -/
def specG : NewRequestSpec :=
  { item_id := 2, quantity := 300, priority := .High }

/-- Request spec targeting item 1, which has a Pending request in `ledger0`. -/
def specDup : NewRequestSpec :=
  { item_id := 1, quantity := 100, priority := .Critical }

/-- Concrete engine state: the initial catalog and ledger. -/
def st0 : EngineState :=
  { catalog := stock0, ledger := ledger0 }

/-- Concrete operation sequence exercising every kind of engine operation. -/
def ops0 : List InvOp :=
  [.updStock 1 (-20), .mkReq specG, .appr 101 "ok", .decl 104 "no", .fulf 102]

/-- Integer division by a positive integer is the floor of the exact rational
quotient, the reading of `Math.floor(a / b)` on integer inputs. -/
theorem int_div_eq_rat_floor (a b : ℤ) (hb : 0 < b) :
    a / b = ⌊(a : ℚ) / (b : ℚ)⌋ := by
  have h : ((b.toNat : ℕ) : ℤ) = b := Int.toNat_of_nonneg hb.le
  rw [← h, Int.cast_natCast, Rat.floor_intCast_div_natCast]

/-- C1: for every item with `daily_usage > 0`, the depletion forecast computes
`remaining_days = floor(current_stock / daily_usage)` and assigns tier
Critical when `remaining_days <= 5`, High when `5 < remaining_days <= 10`,
and Normal when `remaining_days > 10`. -/
theorem C1_forecast_floor_and_tiers (item : Item) (h : 0 < item.daily_usage) :
    daysRemaining item = some ⌊(item.current_stock : ℚ) / (item.daily_usage : ℚ)⌋ ∧
    ∀ d, daysRemaining item = some d →
      ((d ≤ 5 → urgencyTier item = .Critical) ∧
       (5 < d → d ≤ 10 → urgencyTier item = .High) ∧
       (10 < d → urgencyTier item = .Normal)) := by
  constructor
  · rw [daysRemaining, if_pos h, int_div_eq_rat_floor _ _ h]
  · intro d hd
    have ht : urgencyTier item = tierOfDays (some d) := by rw [urgencyTier, hd]
    refine ⟨fun h5 => ?_, fun h5 h10 => ?_, fun h10 => ?_⟩
    · rw [ht]; simp [tierOfDays, h5]
    · rw [ht]; simp [tierOfDays, not_le.2 h5, h10]
    · rw [ht]; simp [tierOfDays, not_le.2 (lt_trans (show (5:ℤ) < 10 by decide) h10),
        not_le.2 h10]

/-- Witness for C1 at the Zinc item (55 in stock, usage 10). -/
theorem C1_forecast_floor_and_tiers_witness :
    0 < item55.daily_usage ∧
    (daysRemaining item55 = some ⌊(item55.current_stock : ℚ) / (item55.daily_usage : ℚ)⌋ ∧
     ∀ d, daysRemaining item55 = some d →
       ((d ≤ 5 → urgencyTier item55 = .Critical) ∧
        (5 < d → d ≤ 10 → urgencyTier item55 = .High) ∧
        (10 < d → urgencyTier item55 = .Normal))) :=
  ⟨by decide, C1_forecast_floor_and_tiers item55 (by decide)⟩

/-- C2, counterexample: on an item with zero daily usage the table's badge
logic yields the default green Normal tier, not a distinct Unknown tier. -/
theorem C2_zero_usage_counterexample :
    urgencyTier itemZeroUsage = Tier.Normal ∧ Tier.Normal ≠ Tier.Unknown := by
  decide

/-- C2, amended: for every item with `daily_usage <= 0` the remaining-days
value is the not-applicable sentinel (rendered "N/A"), the badge tier is the
default Normal (there is no Unknown tier in the code), and the restock policy
never auto-creates a request for such an item. -/
theorem C2_zero_usage_amended (item : Item) (h : item.daily_usage ≤ 0) :
    daysRemaining item = none ∧ urgencyTier item = .Normal ∧
    ∀ topup hasOpen, RestockPolicy.evaluate topup item (urgencyTier item) hasOpen = none := by
  have hn : daysRemaining item = none := by rw [daysRemaining, if_neg (not_lt.2 h)]
  have ht : urgencyTier item = .Normal := by rw [urgencyTier, hn]; rfl
  refine ⟨hn, ht, fun topup hasOpen => ?_⟩
  rw [ht, RestockPolicy.evaluate, if_pos (Or.inr rfl)]

/-- Witness for the amended C2 at the zero-usage Amoxicillin item. -/
theorem C2_zero_usage_amended_witness :
    itemZeroUsage.daily_usage ≤ 0 ∧
    (daysRemaining itemZeroUsage = none ∧ urgencyTier itemZeroUsage = .Normal ∧
     ∀ topup hasOpen,
       RestockPolicy.evaluate topup itemZeroUsage (urgencyTier itemZeroUsage) hasOpen = none) :=
  ⟨by decide, C2_zero_usage_amended itemZeroUsage (by decide)⟩

/-- C9: the forecast is deterministic, a function of `current_stock` and
`daily_usage` alone: two items agreeing on those fields get identical
remaining days and identical tiers. Purity holds by construction: the
embedded forecast is a function and touches no item or request state. -/
theorem C9_forecast_deterministic (i1 i2 : Item)
    (hs : i1.current_stock = i2.current_stock)
    (hu : i1.daily_usage = i2.daily_usage) :
    daysRemaining i1 = daysRemaining i2 ∧ urgencyTier i1 = urgencyTier i2 := by
  have hd : daysRemaining i1 = daysRemaining i2 := by
    rw [daysRemaining, daysRemaining, hs, hu]
  exact ⟨hd, by rw [urgencyTier, urgencyTier, hd]⟩

/-- Witness for C9 at two items sharing only the stock numbers. -/
theorem C9_forecast_deterministic_witness :
    item55.current_stock = item55b.current_stock ∧
    item55.daily_usage = item55b.daily_usage ∧
    (daysRemaining item55 = daysRemaining item55b ∧
     urgencyTier item55 = urgencyTier item55b) :=
  ⟨by decide, by decide, C9_forecast_deterministic item55 item55b (by decide) (by decide)⟩

/-- C10: for an item with positive daily usage, the summary counts it exactly
when the unfloored quotient is at most 5 (equivalently
`current_stock <= 5 * daily_usage`), the table badge is Critical exactly when
the floored quotient is at most 5, and hence every item with
`5 * daily_usage < current_stock < 6 * daily_usage` is Critical in the table
but excluded from the summary's low-stock count. -/
theorem C10_summary_table_boundary (item : Item) (h : 0 < item.daily_usage) :
    (isLowStockSummary item = true ↔ item.current_stock ≤ 5 * item.daily_usage) ∧
    (urgencyTier item = .Critical ↔ item.current_stock / item.daily_usage ≤ 5) ∧
    (5 * item.daily_usage < item.current_stock →
     item.current_stock < 6 * item.daily_usage →
      urgencyTier item = .Critical ∧ isLowStockSummary item = false) := by
  have hq : (0 : ℚ) < (item.daily_usage : ℚ) := by exact_mod_cast h
  have hsum : isLowStockSummary item = true ↔
      item.current_stock ≤ 5 * item.daily_usage := by
    simp only [isLowStockSummary, h, decide_True, Bool.true_and, decide_eq_true_eq]
    rw [div_le_iff₀ hq]
    exact_mod_cast Iff.rfl
  have hdr : daysRemaining item = some (item.current_stock / item.daily_usage) := by
    rw [daysRemaining, if_pos h]
  have hcrit : urgencyTier item = .Critical ↔
      item.current_stock / item.daily_usage ≤ 5 := by
    rw [urgencyTier, hdr]
    by_cases h5 : item.current_stock / item.daily_usage ≤ 5
    · simp [tierOfDays, h5]
    · by_cases h10 : item.current_stock / item.daily_usage ≤ 10 <;>
        simp [tierOfDays, h5, h10]
  refine ⟨hsum, hcrit, fun h5 h6 => ⟨?_, ?_⟩⟩
  · exact hcrit.2 (Int.lt_add_one_iff.1 ((Int.ediv_lt_iff_lt_mul h).2 h6))
  · cases hb : isLowStockSummary item with
    | false => rfl
    | true => exact absurd (hsum.1 hb) (not_le.2 h5)

/-- Witness for C10 at the Zinc item: 55 in stock, usage 10, so the table
shows Critical (5 days) while the summary does not count it (quotient 5.5). -/
theorem C10_summary_table_boundary_witness :
    0 < item55.daily_usage ∧
    ((isLowStockSummary item55 = true ↔ item55.current_stock ≤ 5 * item55.daily_usage) ∧
     (urgencyTier item55 = .Critical ↔ item55.current_stock / item55.daily_usage ≤ 5) ∧
     (5 * item55.daily_usage < item55.current_stock →
      item55.current_stock < 6 * item55.daily_usage →
       urgencyTier item55 = .Critical ∧ isLowStockSummary item55 = false)) :=
  ⟨by decide, C10_summary_table_boundary item55 (by decide)⟩

/-- In a list whose keys are pairwise distinct, two members with equal keys
are equal. -/
theorem pairwise_key_mem_eq {α : Type} (key : α → ℕ) (lst : List α)
    (hp : List.Pairwise (fun a b => key a ≠ key b) lst) :
    ∀ r ∈ lst, ∀ r2 ∈ lst, key r = key r2 → r = r2 := by
  induction lst with
  | nil => intro r hr; cases hr
  | cons a t ih =>
    intro r hr r2 hr2 hid
    rcases List.mem_cons.1 hr with h1 | h1 <;> rcases List.mem_cons.1 hr2 with h2 | h2
    · rw [h1, h2]
    · exact absurd hid (h1 ▸ (List.pairwise_cons.1 hp).1 r2 h2)
    · exact absurd hid.symm (h2 ▸ (List.pairwise_cons.1 hp).1 r h1)
    · exact ih (List.pairwise_cons.1 hp).2 r h1 r2 h2 hid

/-- C3: `create` on an item with an open (Pending or Approved) request fails
with DuplicateOpenRequest and inserts nothing; otherwise it appends a new
Pending request for the item and returns its id. The failing call returns
only the error, so it mutates nothing by construction. -/
theorem C3_create_duplicate_guard (l : Ledger) (s : NewRequestSpec) :
    (openFor l s.item_id = true ↔ ∃ r ∈ l.requests, r.item_id = s.item_id ∧
        (r.status = .Pending ∨ r.status = .Approved)) ∧
    (openFor l s.item_id = true → l.create s = .error .DuplicateOpenRequest) ∧
    (openFor l s.item_id = false →
      ∃ l2 rid, l.create s = .ok (l2, rid) ∧
        ∃ rnew, l2.requests = l.requests ++ [rnew] ∧ rnew.status = .Pending ∧
          rnew.item_id = s.item_id ∧ rnew.quantity = s.quantity ∧
          rnew.priority = s.priority ∧ rnew.request_id = rid) := by
  refine ⟨?_, ?_, ?_⟩
  · simp [openFor, isOpenReq, List.any_eq_true, and_assoc]
  · intro h
    rw [Ledger.create, if_pos h]
  · intro h
    rw [Ledger.create, if_neg (by rw [h]; exact Bool.false_ne_true)]
    exact ⟨_, _, rfl, _, rfl, rfl, rfl, rfl, rfl, rfl⟩

/-- Witness for C3: in the initial ledger, a second request for item 1 is
rejected as a duplicate while a request for item 2 is inserted as Pending. -/
theorem C3_create_duplicate_guard_witness :
    ledger0.create specDup = .error .DuplicateOpenRequest ∧
    (∃ l2 rid, ledger0.create specG = .ok (l2, rid) ∧
      ∃ rnew, l2.requests = ledger0.requests ++ [rnew] ∧ rnew.status = .Pending ∧
        rnew.item_id = specG.item_id ∧ rnew.quantity = specG.quantity ∧
        rnew.priority = specG.priority ∧ rnew.request_id = rid) :=
  ⟨(C3_create_duplicate_guard ledger0 specDup).2.1 (by decide),
   (C3_create_duplicate_guard ledger0 specG).2.2 (by decide)⟩

/-- Setting the status of the request found at an id steps every request of
the ledger along a permitted transition, provided ids are unique and the step
applied to the found request is permitted. -/
theorem setReqStatus_statuses (l : Ledger) (rid : ℕ) (st : Status) (comment : String)
    (r0 : RestockRequest) (hfind : l.findReq rid = some r0) (hu : UniqueIds l)
    (hstep : allowedStep r0.status st) :
    StatusesStep l (setReqStatus l rid st comment) := by
  intro r hr
  have hr0mem : r0 ∈ l.requests := List.mem_of_find?_eq_some hfind
  have hfind2 : List.find? (fun x : RestockRequest => decide (x.request_id = rid))
      l.requests = some r0 := hfind
  have hpa := List.find?_some hfind2
  have hr0id : r0.request_id = rid := of_decide_eq_true hpa
  by_cases hid : r.request_id = rid
  · have hrr0 : r = r0 :=
      pairwise_key_mem_eq RestockRequest.request_id l.requests hu r hr r0 hr0mem
        (by rw [hid, hr0id])
    refine ⟨{ r with status := st, comments := comment }, ?_, rfl, ?_⟩
    · exact List.mem_map.2 ⟨r, hr, by rw [if_pos hid]⟩
    · exact hrr0 ▸ hstep
  · exact ⟨r, List.mem_map.2 ⟨r, hr, by rw [if_neg hid]⟩, rfl, Or.inl rfl⟩

/-- C4: the only status transitions the operations perform are
Pending to Approved, Pending to Declined, and Approved to Fulfilled; approve
and decline on a non-Pending request, and any operation on a Declined or
Fulfilled request, fail with InvalidTransition. A failing operation returns
only the error value, so it leaves every status unchanged by construction. -/
theorem C4_status_machine (cat : Catalog) (l : Ledger) (rid : ℕ) (comment : String)
    (hu : UniqueIds l) :
    (∀ l2, l.approve rid comment = .ok l2 → StatusesStep l l2) ∧
    (∀ l2, l.decline rid comment = .ok l2 → StatusesStep l l2) ∧
    (∀ cat2 l2, fulfill cat l rid = .ok (cat2, l2) → StatusesStep l l2) ∧
    (∀ r, l.findReq rid = some r → r.status ≠ .Pending →
      l.approve rid comment = .error .InvalidTransition ∧
      l.decline rid comment = .error .InvalidTransition) ∧
    (∀ r, l.findReq rid = some r → r.status ≠ .Approved →
      fulfill cat l rid = .error .InvalidTransition) ∧
    (∀ r, l.findReq rid = some r → (r.status = .Declined ∨ r.status = .Fulfilled) →
      l.approve rid comment = .error .InvalidTransition ∧
      l.decline rid comment = .error .InvalidTransition ∧
      fulfill cat l rid = .error .InvalidTransition) := by
  have happ : ∀ r, l.findReq rid = some r → r.status ≠ .Pending →
      l.approve rid comment = .error .InvalidTransition := by
    intro r hfind hne
    simp only [Ledger.approve, hfind]
    rw [if_neg hne]
  have hdec : ∀ r, l.findReq rid = some r → r.status ≠ .Pending →
      l.decline rid comment = .error .InvalidTransition := by
    intro r hfind hne
    simp only [Ledger.decline, hfind]
    rw [if_neg hne]
  have hful : ∀ r, l.findReq rid = some r → r.status ≠ .Approved →
      fulfill cat l rid = .error .InvalidTransition := by
    intro r hfind hne
    simp only [fulfill, hfind]
    rw [if_neg hne]
  refine ⟨?_, ?_, ?_, fun r hf hn => ⟨happ r hf hn, hdec r hf hn⟩, hful, ?_⟩
  · intro l2 hok
    cases hfind : l.findReq rid with
    | none =>
      simp only [Ledger.approve, hfind] at hok
      exact Except.noConfusion hok
    | some r0 =>
      simp only [Ledger.approve, hfind] at hok
      by_cases hst : r0.status = .Pending
      · rw [if_pos hst] at hok
        cases hok
        exact setReqStatus_statuses l rid .Approved comment r0 hfind hu
          (Or.inr (Or.inl ⟨hst, rfl⟩))
      · rw [if_neg hst] at hok
        exact Except.noConfusion hok
  · intro l2 hok
    cases hfind : l.findReq rid with
    | none =>
      simp only [Ledger.decline, hfind] at hok
      exact Except.noConfusion hok
    | some r0 =>
      simp only [Ledger.decline, hfind] at hok
      by_cases hst : r0.status = .Pending
      · rw [if_pos hst] at hok
        cases hok
        exact setReqStatus_statuses l rid .Declined comment r0 hfind hu
          (Or.inr (Or.inr (Or.inl ⟨hst, rfl⟩)))
      · rw [if_neg hst] at hok
        exact Except.noConfusion hok
  · intro cat2 l2 hok
    cases hfind : l.findReq rid with
    | none =>
      simp only [fulfill, hfind] at hok
      exact Except.noConfusion hok
    | some r0 =>
      simp only [fulfill, hfind] at hok
      by_cases hst : r0.status = .Approved
      · rw [if_pos hst] at hok
        cases hok
        exact setReqStatus_statuses l rid .Fulfilled r0.comments r0 hfind hu
          (Or.inr (Or.inr (Or.inr ⟨hst, rfl⟩)))
      · rw [if_neg hst] at hok
        exact Except.noConfusion hok
  · intro r hfind hterm
    have hnp : r.status ≠ .Pending := by
      rcases hterm with h | h <;> rw [h] <;> exact fun hc => Status.noConfusion hc
    have hna : r.status ≠ .Approved := by
      rcases hterm with h | h <;> rw [h] <;> exact fun hc => Status.noConfusion hc
    exact ⟨happ r hfind hnp, hdec r hfind hnp, hful r hfind hna⟩

/-- Witness for C4 at the initial ledger and request 102 (Approved). -/
theorem C4_status_machine_witness :
    UniqueIds ledger0 ∧
    ((∀ l2, ledger0.approve 102 "c" = .ok l2 → StatusesStep ledger0 l2) ∧
     (∀ l2, ledger0.decline 102 "c" = .ok l2 → StatusesStep ledger0 l2) ∧
     (∀ cat2 l2, fulfill stock0 ledger0 102 = .ok (cat2, l2) → StatusesStep ledger0 l2) ∧
     (∀ r, ledger0.findReq 102 = some r → r.status ≠ .Pending →
       ledger0.approve 102 "c" = .error .InvalidTransition ∧
       ledger0.decline 102 "c" = .error .InvalidTransition) ∧
     (∀ r, ledger0.findReq 102 = some r → r.status ≠ .Approved →
       fulfill stock0 ledger0 102 = .error .InvalidTransition) ∧
     (∀ r, ledger0.findReq 102 = some r → (r.status = .Declined ∨ r.status = .Fulfilled) →
       ledger0.approve 102 "c" = .error .InvalidTransition ∧
       ledger0.decline 102 "c" = .error .InvalidTransition ∧
       fulfill stock0 ledger0 102 = .error .InvalidTransition)) :=
  ⟨by simp only [UniqueIds]; decide,
   C4_status_machine stock0 ledger0 102 "c" (by simp only [UniqueIds]; decide)⟩

/-- C5: `fulfill` on an Approved request succeeds, increases the stock of the
item with the request's `item_id` by exactly the request's quantity (leaving
every other item's stock unchanged) and marks the request Fulfilled; on a
request in any other status it fails with InvalidTransition, and the failing
call returns only the error, mutating neither stock nor status. -/
theorem C5_fulfill_stock (cat : Catalog) (l : Ledger) (rid : ℕ) :
    (∀ r, l.findReq rid = some r → r.status = .Approved →
      ∃ cat2 l2, fulfill cat l rid = .ok (cat2, l2) ∧
        (∀ i ∈ cat, ∃ i2 ∈ cat2, i2.id = i.id ∧
          i2.current_stock = i.current_stock +
            (if i.id = r.item_id then r.quantity else 0)) ∧
        (∃ r2 ∈ l2.requests, r2.request_id = r.request_id ∧ r2.status = .Fulfilled)) ∧
    (∀ r, l.findReq rid = some r → r.status ≠ .Approved →
      fulfill cat l rid = .error .InvalidTransition) := by
  constructor
  · intro r hfind hst
    refine ⟨addStockTo cat r.item_id r.quantity, setReqStatus l rid .Fulfilled r.comments,
      ?_, ?_, ?_⟩
    · simp only [fulfill, hfind]
      rw [if_pos hst]
    · intro i hi
      refine ⟨if i.id = r.item_id then { i with current_stock := i.current_stock + r.quantity }
          else i, List.mem_map.2 ⟨i, hi, rfl⟩, ?_, ?_⟩
      · by_cases hid : i.id = r.item_id <;> simp [hid]
      · by_cases hid : i.id = r.item_id <;> simp [hid]
    · have hfind2 : List.find? (fun x : RestockRequest => decide (x.request_id = rid))
          l.requests = some r := hfind
      have hpa := List.find?_some hfind2
      have hrid : r.request_id = rid := of_decide_eq_true hpa
      refine ⟨{ r with status := .Fulfilled, comments := r.comments },
        List.mem_map.2 ⟨r, List.mem_of_find?_eq_some hfind, by rw [if_pos hrid]⟩, rfl, rfl⟩
  · intro r hfind hne
    simp only [fulfill, hfind]
    rw [if_neg hne]

/-- Witness for C5 at the initial state: fulfilling the Approved request 102
adds 200 Syringes, while fulfilling the Pending request 101 fails. -/
theorem C5_fulfill_stock_witness :
    (∃ cat2 l2, fulfill stock0 ledger0 102 = .ok (cat2, l2) ∧
      (∀ i ∈ stock0, ∃ i2 ∈ cat2, i2.id = i.id ∧
        i2.current_stock = i.current_stock +
          (if i.id = req102.item_id then req102.quantity else 0)) ∧
      (∃ r2 ∈ l2.requests, r2.request_id = req102.request_id ∧ r2.status = .Fulfilled)) ∧
    fulfill stock0 ledger0 101 = .error .InvalidTransition :=
  ⟨(C5_fulfill_stock stock0 ledger0 102).1 req102 (by decide) (by decide),
   (C5_fulfill_stock stock0 ledger0 101).2 req101 (by decide) (by decide)⟩

/-- A tier that triggers the policy is neither Unknown nor Normal. -/
theorem triggers_not_unknown_normal (t : Tier) (h : triggersTier t = true) :
    ¬(t = .Unknown ∨ t = .Normal) := by
  cases t <;> simp [triggersTier] at h ⊢

/-- A tier that does not trigger the policy is Unknown or Normal. -/
theorem not_triggers_unknown_normal (t : Tier) (h : triggersTier t = false) :
    t = .Unknown ∨ t = .Normal := by
  cases t <;> simp [triggersTier] at h ⊢

/-- A successful create only appends, so any open request stays open. -/
theorem openFor_create_mono (l : Ledger) (s : NewRequestSpec) (l2 : Ledger) (rid : ℕ)
    (hok : l.create s = .ok (l2, rid)) (i : ℕ) (h : openFor l i = true) :
    openFor l2 i = true := by
  rw [Ledger.create] at hok
  by_cases hdup : openFor l s.item_id
  · rw [if_pos hdup] at hok
    exact Except.noConfusion hok
  · rw [if_neg hdup] at hok
    cases hok
    rw [openFor] at h ⊢
    rw [List.any_append, h, Bool.true_or]

/-- One sweep step keeps every open request open. -/
theorem sweepStep_open_mono (topup : Item → ℤ) (acc : SweepResult) (item : Item)
    (i : ℕ) (h : openFor acc.ledger i = true) :
    openFor (sweepStep topup acc item).ledger i = true := by
  cases hev : RestockPolicy.evaluate topup item (urgencyTier item)
      (openFor acc.ledger item.id) with
  | none =>
    simp only [sweepStep, hev]
    by_cases htr : triggersTier (urgencyTier item) = true
    · rw [if_pos htr]
      exact h
    · rw [if_neg htr]
      exact h
  | some s =>
    simp only [sweepStep, hev]
    cases hcr : acc.ledger.create s with
    | ok p =>
      obtain ⟨l2, rid⟩ := p
      exact openFor_create_mono acc.ledger s l2 rid hcr i h
    | error e => exact h

/-- The whole sweep keeps every open request open. -/
theorem sweepFold_open_mono (topup : Item → ℤ) (cat : Catalog) (acc : SweepResult)
    (i : ℕ) (h : openFor acc.ledger i = true) :
    openFor (List.foldl (sweepStep topup) acc cat).ledger i = true := by
  induction cat generalizing acc with
  | nil => exact h
  | cons x xs ih => exact ih (sweepStep topup acc x) (sweepStep_open_mono topup acc x i h)

/-- After the sweep step for an item whose tier triggers, the item has an
open request: either it already had one, or a Pending request was created. -/
theorem sweepStep_covers (topup : Item → ℤ) (acc : SweepResult) (item : Item)
    (htr : triggersTier (urgencyTier item) = true) :
    openFor (sweepStep topup acc item).ledger item.id = true := by
  cases hop : openFor acc.ledger item.id with
  | true => exact sweepStep_open_mono topup acc item item.id hop
  | false =>
    have hnt := triggers_not_unknown_normal _ htr
    have hev : RestockPolicy.evaluate topup item (urgencyTier item)
        (openFor acc.ledger item.id) =
        some { item_id := item.id, quantity := topup item, priority := urgencyTier item } := by
      rw [RestockPolicy.evaluate, if_neg hnt, hop]
      simp
    simp only [sweepStep, hev]
    cases hcr : acc.ledger.create
        { item_id := item.id, quantity := topup item, priority := urgencyTier item } with
    | error e =>
      rw [Ledger.create] at hcr
      rw [if_neg (by rw [hop]; exact Bool.false_ne_true)] at hcr
      exact Except.noConfusion hcr
    | ok p =>
      obtain ⟨l2, rid⟩ := p
      rw [Ledger.create] at hcr
      rw [if_neg (by rw [hop]; exact Bool.false_ne_true)] at hcr
      cases hcr
      simp [openFor, List.any_append, isOpenReq]

/-- Every item of the catalog whose tier triggers has an open request after
the sweep's fold, whatever the accumulator. -/
theorem sweepFold_covers (topup : Item → ℤ) (cat : Catalog) :
    ∀ acc, ∀ item ∈ cat, triggersTier (urgencyTier item) = true →
      openFor (List.foldl (sweepStep topup) acc cat).ledger item.id = true := by
  induction cat with
  | nil => intro acc item h; cases h
  | cons x xs ih =>
    intro acc item hm htr
    rcases List.mem_cons.1 hm with rfl | hm2
    · exact sweepFold_open_mono topup xs (sweepStep topup acc item) item.id
        (sweepStep_covers topup acc item htr)
    · exact ih (sweepStep topup acc x) item hm2 htr

/-- When every triggering item of the catalog already has an open request,
the sweep's fold changes neither the ledger nor the created list. -/
theorem sweepFold_noop (topup : Item → ℤ) (cat : Catalog) :
    ∀ acc, (∀ item ∈ cat, triggersTier (urgencyTier item) = true →
        openFor acc.ledger item.id = true) →
      (List.foldl (sweepStep topup) acc cat).ledger = acc.ledger ∧
      (List.foldl (sweepStep topup) acc cat).created = acc.created := by
  induction cat with
  | nil => intro acc _; exact ⟨rfl, rfl⟩
  | cons x xs ih =>
    intro acc hcov
    have hstep : (sweepStep topup acc x).ledger = acc.ledger ∧
        (sweepStep topup acc x).created = acc.created := by
      cases htr : triggersTier (urgencyTier x) with
      | true =>
        have hop := hcov x (List.mem_cons_self x xs) htr
        have hnt := triggers_not_unknown_normal _ htr
        have hev : RestockPolicy.evaluate topup x (urgencyTier x)
            (openFor acc.ledger x.id) = none := by
          rw [RestockPolicy.evaluate, if_neg hnt, hop]
          simp
        simp [sweepStep, hev, htr]
      | false =>
        have hun := not_triggers_unknown_normal _ htr
        have hev : RestockPolicy.evaluate topup x (urgencyTier x)
            (openFor acc.ledger x.id) = none := by
          rw [RestockPolicy.evaluate, if_pos hun]
        simp [sweepStep, hev, htr]
    have hcov2 : ∀ item ∈ xs, triggersTier (urgencyTier item) = true →
        openFor (sweepStep topup acc x).ledger item.id = true := by
      intro item hm htr2
      rw [hstep.1]
      exact hcov item (List.mem_cons_of_mem x hm) htr2
    have hrest := ih (sweepStep topup acc x) hcov2
    exact ⟨hrest.1.trans hstep.1, hrest.2.trans hstep.2⟩

/-- C6: running the sweep in commit mode twice in succession, with no change
to catalog or ledger in between, creates zero requests on the second run and
leaves the ledger unchanged. -/
theorem C6_sweep_idempotent (topup : Item → ℤ) (cat : Catalog) (l : Ledger) :
    (ScheduledSweep.run topup cat (ScheduledSweep.run topup cat l).ledger).created = [] ∧
    (ScheduledSweep.run topup cat (ScheduledSweep.run topup cat l).ledger).ledger =
      (ScheduledSweep.run topup cat l).ledger := by
  have hcov : ∀ item ∈ cat, triggersTier (urgencyTier item) = true →
      openFor (ScheduledSweep.run topup cat l).ledger item.id = true := by
    intro item hm htr
    rw [ScheduledSweep.run]
    exact sweepFold_covers topup cat _ item hm htr
  have h2 := sweepFold_noop topup cat
    { created := [], skipped := [], ledger := (ScheduledSweep.run topup cat l).ledger } hcov
  exact ⟨h2.2, h2.1⟩

/-- The stock-adding rewrite never changes an item's id. -/
theorem addStock_item_id (i : Item) (iid : ℕ) (q : ℤ) :
    (if i.id = iid then { i with current_stock := i.current_stock + q } else i).id = i.id := by
  by_cases h : i.id = iid <;> simp [h]

/-- Adding stock preserves item ids, hence their distinctness. -/
theorem addStockTo_pairwise (cat : Catalog) (iid : ℕ) (q : ℤ)
    (h : List.Pairwise (fun a b => a.id ≠ b.id) cat) :
    List.Pairwise (fun a b => a.id ≠ b.id) (addStockTo cat iid q) := by
  rw [addStockTo, List.pairwise_map]
  refine h.imp ?_
  intro a b hab
  simp only [addStock_item_id]
  exact hab

/-- Adding a non-negative quantity preserves non-negative stocks. -/
theorem addStockTo_nonneg (cat : Catalog) (iid : ℕ) (q : ℤ) (hq : 0 ≤ q)
    (hs : ∀ i ∈ cat, 0 ≤ i.current_stock) :
    ∀ i2 ∈ addStockTo cat iid q, 0 ≤ i2.current_stock := by
  intro i2 h2
  rw [addStockTo] at h2
  obtain ⟨i, hi, rfl⟩ := List.mem_map.1 h2
  by_cases hid : i.id = iid
  · rw [if_pos hid]
    exact add_nonneg (hs i hi) hq
  · rw [if_neg hid]
    exact hs i hi

/-- Status rewriting preserves request quantities. -/
theorem setReqStatus_quantity (l : Ledger) (rid : ℕ) (st : Status) (c : String)
    (hq : ∀ r ∈ l.requests, 0 ≤ r.quantity) :
    ∀ r2 ∈ (setReqStatus l rid st c).requests, 0 ≤ r2.quantity := by
  intro r2 h2
  obtain ⟨r, hr, rfl⟩ := List.mem_map.1 h2
  by_cases hid : r.request_id = rid
  · rw [if_pos hid]
    exact hq r hr
  · rw [if_neg hid]
    exact hq r hr

/-- A successful guarded stock update keeps every stock non-negative. -/
theorem updateStock_nonneg (cat : Catalog) (iid : ℕ) (delta : ℤ) (cat2 : Catalog)
    (hok : updateStock cat iid delta = .ok cat2)
    (hs : ∀ i ∈ cat, 0 ≤ i.current_stock)
    (hp : List.Pairwise (fun a b => a.id ≠ b.id) cat) :
    ∀ i2 ∈ cat2, 0 ≤ i2.current_stock := by
  rw [updateStock] at hok
  cases hfind : List.find? (fun i : Item => decide (i.id = iid)) cat with
  | none =>
    simp only [hfind] at hok
    exact Except.noConfusion hok
  | some i0 =>
    simp only [hfind] at hok
    by_cases hneg : i0.current_stock + delta < 0
    · rw [if_pos hneg] at hok
      exact Except.noConfusion hok
    · rw [if_neg hneg] at hok
      cases hok
      have hi0mem : i0 ∈ cat := List.mem_of_find?_eq_some hfind
      have hpa := List.find?_some hfind
      have hi0id : i0.id = iid := of_decide_eq_true hpa
      intro i2 h2
      rw [addStockTo] at h2
      obtain ⟨i, hi, rfl⟩ := List.mem_map.1 h2
      by_cases hid : i.id = iid
      · have hii0 : i = i0 :=
          pairwise_key_mem_eq Item.id cat hp i hi i0 hi0mem (by rw [hid, hi0id])
        rw [if_pos hid, hii0]
        exact not_lt.1 hneg
      · rw [if_neg hid]
        exact hs i hi

/-- A successful guarded stock update preserves the distinctness of ids. -/
theorem updateStock_pairwise (cat : Catalog) (iid : ℕ) (delta : ℤ) (cat2 : Catalog)
    (hok : updateStock cat iid delta = .ok cat2)
    (hp : List.Pairwise (fun a b => a.id ≠ b.id) cat) :
    List.Pairwise (fun a b => a.id ≠ b.id) cat2 := by
  rw [updateStock] at hok
  cases hfind : List.find? (fun i : Item => decide (i.id = iid)) cat with
  | none =>
    simp only [hfind] at hok
    exact Except.noConfusion hok
  | some i0 =>
    simp only [hfind] at hok
    by_cases hneg : i0.current_stock + delta < 0
    · rw [if_pos hneg] at hok
      exact Except.noConfusion hok
    · rw [if_neg hneg] at hok
      cases hok
      exact addStockTo_pairwise cat iid delta hp

/-- One well-formed operation applied to a well-formed state yields a
well-formed state. -/
theorem stepOp_wf (st : EngineState) (op : InvOp) (hwf : EngineWF st)
    (hop : OpOK op = true) (st2 : EngineState) (hok : stepOp st op = .ok st2) :
    EngineWF st2 := by
  obtain ⟨hs, hq, hp⟩ := hwf
  cases op with
  | updStock iid delta =>
    simp only [stepOp] at hok
    cases hupd : updateStock st.catalog iid delta with
    | error e =>
      simp only [hupd, Except.map] at hok
      exact Except.noConfusion hok
    | ok cat2 =>
      simp only [hupd, Except.map] at hok
      cases hok
      exact ⟨updateStock_nonneg st.catalog iid delta cat2 hupd hs hp, hq,
        updateStock_pairwise st.catalog iid delta cat2 hupd hp⟩
  | mkReq s =>
    simp only [stepOp, Ledger.create] at hok
    by_cases hdup : openFor st.ledger s.item_id
    · rw [if_pos hdup] at hok
      simp only [Except.map] at hok
      exact Except.noConfusion hok
    · rw [if_neg hdup] at hok
      simp only [Except.map] at hok
      cases hok
      refine ⟨hs, ?_, hp⟩
      intro r hr
      rcases List.mem_append.1 hr with h1 | h1
      · exact hq r h1
      · rcases List.mem_singleton.1 h1 with rfl
        have hqs : (0 : ℤ) < s.quantity := of_decide_eq_true hop
        exact hqs.le
  | appr rid comment =>
    simp only [stepOp, Ledger.approve] at hok
    cases hfind : st.ledger.findReq rid with
    | none =>
      simp only [hfind, Except.map] at hok
      exact Except.noConfusion hok
    | some r0 =>
      simp only [hfind] at hok
      by_cases hst : r0.status = .Pending
      · rw [if_pos hst] at hok
        simp only [Except.map] at hok
        cases hok
        exact ⟨hs, setReqStatus_quantity st.ledger rid .Approved comment hq, hp⟩
      · rw [if_neg hst] at hok
        simp only [Except.map] at hok
        exact Except.noConfusion hok
  | decl rid comment =>
    simp only [stepOp, Ledger.decline] at hok
    cases hfind : st.ledger.findReq rid with
    | none =>
      simp only [hfind, Except.map] at hok
      exact Except.noConfusion hok
    | some r0 =>
      simp only [hfind] at hok
      by_cases hst : r0.status = .Pending
      · rw [if_pos hst] at hok
        simp only [Except.map] at hok
        cases hok
        exact ⟨hs, setReqStatus_quantity st.ledger rid .Declined comment hq, hp⟩
      · rw [if_neg hst] at hok
        simp only [Except.map] at hok
        exact Except.noConfusion hok
  | fulf rid =>
    simp only [stepOp, fulfill] at hok
    cases hfind : st.ledger.findReq rid with
    | none =>
      simp only [hfind, Except.map] at hok
      exact Except.noConfusion hok
    | some r0 =>
      simp only [hfind] at hok
      by_cases hst : r0.status = .Approved
      · rw [if_pos hst] at hok
        simp only [Except.map] at hok
        cases hok
        refine ⟨?_, setReqStatus_quantity st.ledger rid .Fulfilled r0.comments hq, ?_⟩
        · exact addStockTo_nonneg st.catalog r0.item_id r0.quantity
            (hq r0 (List.mem_of_find?_eq_some hfind)) hs
        · exact addStockTo_pairwise st.catalog r0.item_id r0.quantity hp
      · rw [if_neg hst] at hok
        simp only [Except.map] at hok
        exact Except.noConfusion hok

/-- Well-formedness is preserved along any sequence of operations; a failing
operation leaves the state as it was. -/
theorem runOps_wf (st : EngineState) (ops : List InvOp) (hwf : EngineWF st)
    (hops : ∀ op ∈ ops, OpOK op = true) : EngineWF (runOps st ops) := by
  induction ops generalizing st with
  | nil => exact hwf
  | cons op rest ih =>
    rw [runOps, List.foldl_cons]
    cases hso : stepOp st op with
    | ok st2 =>
      simp only [hso]
      exact ih st2 (stepOp_wf st op hwf (hops op (List.mem_cons_self op rest)) st2 hso)
        (fun o ho => hops o (List.mem_cons_of_mem op ho))
    | error e =>
      simp only [hso]
      exact ih st hwf (fun o ho => hops o (List.mem_cons_of_mem op ho))

/-- C7: with non-negative stocks, non-negative request quantities and
distinct item ids, every sequence of engine operations (well-formed requests
only) keeps every `current_stock` non-negative, and a stock update whose
result would be negative is rejected with a ValidationError; the rejected
call returns only the error, leaving the item unchanged by construction. -/
theorem C7_stock_invariant (st : EngineState) (ops : List InvOp)
    (hwf : EngineWF st) (hops : ∀ op ∈ ops, OpOK op = true) :
    (∀ i ∈ (runOps st ops).catalog, 0 ≤ i.current_stock) ∧
    (∀ iid delta i0, List.find? (fun x : Item => decide (x.id = iid)) st.catalog = some i0 →
      i0.current_stock + delta < 0 →
      updateStock st.catalog iid delta = .error .ValidationError) := by
  constructor
  · exact (runOps_wf st ops hwf hops).1
  · intro iid delta i0 hfind hneg
    rw [updateStock]
    simp only [hfind]
    rw [if_pos hneg]

/-- Witness for C7 at the initial state with a five-operation run. -/
theorem C7_stock_invariant_witness :
    EngineWF st0 ∧ (∀ op ∈ ops0, OpOK op = true) ∧
    ((∀ i ∈ (runOps st0 ops0).catalog, 0 ≤ i.current_stock) ∧
     (∀ iid delta i0,
       List.find? (fun x : Item => decide (x.id = iid)) st0.catalog = some i0 →
       i0.current_stock + delta < 0 →
       updateStock st0.catalog iid delta = .error .ValidationError)) := by
  refine ⟨⟨by decide, by decide, by decide⟩, by decide, ?_⟩
  exact C7_stock_invariant st0 ops0 ⟨by decide, by decide, by decide⟩ (by decide)

/-- C8: `list` is a read-only projection (it is a pure function of the
ledger): on a ledger whose requests are in `requested_at` ascending order it
returns them in that order, keeping exactly the requests matching the
optional status filter. -/
theorem C8_list_projection (l : Ledger) (filt : Option Status)
    (hs : List.Pairwise (fun a b => a.requested_at ≤ b.requested_at) l.requests) :
    List.Pairwise (fun a b => a.requested_at ≤ b.requested_at) (l.listReq filt) ∧
    ∀ r, r ∈ l.listReq filt ↔
      (r ∈ l.requests ∧ ∀ st, filt = some st → r.status = st) := by
  cases filt with
  | none =>
    refine ⟨hs, fun r => ?_⟩
    simp [Ledger.listReq]
  | some st =>
    constructor
    · exact List.Pairwise.sublist (List.filter_sublist l.requests) hs
    · intro r
      simp [Ledger.listReq, List.mem_filter]

/-- Witness for C8 at the initial ledger with the Pending filter. -/
theorem C8_list_projection_witness :
    List.Pairwise (fun a b => a.requested_at ≤ b.requested_at) ledger0.requests ∧
    (List.Pairwise (fun a b => a.requested_at ≤ b.requested_at)
        (ledger0.listReq (some .Pending)) ∧
     ∀ r, r ∈ ledger0.listReq (some .Pending) ↔
       (r ∈ ledger0.requests ∧ ∀ st, (some Status.Pending = some st) → r.status = st)) :=
  ⟨by decide, C8_list_projection ledger0 (some .Pending) (by decide)⟩
